import Mathlib

/-!
Verification development for the GenAiQuiz program (src/main.py).

The Python program is shallowly embedded here.  Python strings are
modelled as lists of characters (`Str`), and the string primitives the
program uses (`str.split`, `str.strip`, `str.startswith`, `str.replace`
with an empty replacement, `str.split(sep, 1)`, `int(...)`) are defined
below with Python's semantics.  The parser `parse_generated_text`, the
generator loop `generate_quiz`, the topic-entry event handler of
`main_menu`, the quiz-play click handling of `run_quiz`, and the
process-exit behaviour of `main` are each embedded as total Lean
functions mirroring the source line by line.
-/

/-- Python `str` modelled as a list of characters. -/
abbrev Str := List Char

/-- The characters Python's default `str.strip()` removes
(space, tab, newline, carriage return, vertical tab, form feed). -/
def pySpace (c : Char) : Bool :=
  c = ' ' || c = '\t' || c = '\n' || c = '\r' || c = '\x0b' || c = '\x0c'

/-- Remove leading Python whitespace. -/
def stripLeft (s : Str) : Str := s.dropWhile pySpace

/-- Python `s.strip()`: remove leading and trailing whitespace. -/
def strip (s : Str) : Str := ((stripLeft ((stripLeft s).reverse)).reverse)

/-- Python `s.split(c)` for a single-character separator: keeps empty
pieces, `"".split(c) = [""]`. -/
def splitChar (c : Char) : Str → List Str
  | [] => [[]]
  | x :: xs =>
    if x = c then [] :: splitChar c xs
    else
      match splitChar c xs with
      | [] => [[x]]
      | y :: ys => (x :: y) :: ys

/-- Python `s.split(c, 1)` when the separator occurs: `some (before, after)`
splitting at the first occurrence of `c`; `none` when `c` does not occur
(in the source that case raises `IndexError` on `[1]`, caught by the
surrounding `except`). -/
def splitOnce (c : Char) : Str → Option (Str × Str)
  | [] => none
  | x :: xs =>
    if x = c then some ([], xs)
    else (splitOnce c xs).map (fun p => (x :: p.1, p.2))

/-- Worker for `removeAll`, structurally recursive on a fuel argument so
that it evaluates by kernel reduction; with fuel at least `s.length` the
fuel never runs out. -/
def removeAllAux (pat : Str) : Nat → Str → Str
  | _, [] => []
  | 0, s => s
  | fuel + 1, x :: xs =>
    if pat ≠ [] ∧ pat.isPrefixOf (x :: xs) then
      removeAllAux pat fuel ((x :: xs).drop pat.length)
    else
      x :: removeAllAux pat fuel xs

/-- Python `s.replace(pat, "")`: remove every (left-to-right,
non-overlapping) occurrence of `pat` from `s`. -/
def removeAll (pat s : Str) : Str := removeAllAux pat s.length s

/-- Value of a non-empty all-digit string, else `none`. -/
def digitsVal (s : Str) : Option Nat :=
  if s ≠ [] ∧ s.all Char.isDigit then
    some (s.foldl (fun acc c => 10 * acc + (c.toNat - 48)) 0)
  else none

/-- Python `int(s)` on an already-stripped string: optional sign followed
by digits (the underscore and non-ASCII-digit forms Python also accepts
never arise in this program). `none` models the `ValueError` that the
source catches. -/
def pyInt (s : Str) : Option Int :=
  match s with
  | '+' :: rest => (digitsVal rest).map (fun n => (n : Int))
  | '-' :: rest => (digitsVal rest).map (fun n => -(n : Int))
  | _ => (digitsVal s).map (fun n => (n : Int))

/-- The literal `"Question:"` (src/main.py lines 164, 167). -/
def qpat : Str := "Question:".toList

/-- The literal `"Answer:"` (src/main.py lines 179, 182). -/
def apat : Str := "Answer:".toList

/-- The decimal digit character for `n ≤ 9`. -/
def digitChar (n : Nat) : Char := Char.ofNat (48 + n)

/-- The text remaining after a literal leading marker: used to state what
the spec calls the "text after the prefix" / the "remainder" of a line. -/
def afterMarker (p s : Str) : Str := s.drop p.length

/-- Option line `i` of `parse_generated_text` (src/main.py lines 170-176):
require the line to start with `"{i}."`, then take the text after the
first `'.'`, stripped.  `none` on a mismatch (or an impossible missing
dot, which in the source raises and is caught). -/
def parseOption (i : Nat) (l : Str) : Option Str :=
  if (digitChar i :: ['.']).isPrefixOf l then
    (splitOnce '.' l).map (fun p => strip p.2)
  else none

/-- The straight-line body of `parse_generated_text` on the first six
lines (src/main.py lines 162-192): question line check and extraction,
the four option lines, the answer line, the `int` conversion and the
1..4 range check.  Any failure (including the exceptions the source
catches) is `none`. -/
def parseSix (l0 l1 l2 l3 l4 l5 : Str) : Option (Str × List Str × Int) :=
  if qpat.isPrefixOf l0 then
    match parseOption 1 l1, parseOption 2 l2, parseOption 3 l3, parseOption 4 l4 with
    | some o1, some o2, some o3, some o4 =>
      if apat.isPrefixOf l5 then
        match pyInt (strip (removeAll apat l5)) with
        | some a => if a < 1 ∨ 4 < a then none
                    else some (strip (removeAll qpat l0), [o1, o2, o3, o4], a)
        | none => none
      else none
    | _, _, _, _ => none
  else none

/-- `parse_generated_text` after `text.split('\n')`: fewer than six lines
fail (src/main.py lines 158-160); otherwise only the first six lines are
examined. -/
def parseLines : List Str → Option (Str × List Str × Int)
  | l0 :: l1 :: l2 :: l3 :: l4 :: l5 :: _ => parseSix l0 l1 l2 l3 l4 l5
  | _ => none

/-- `parse_generated_text` (src/main.py lines 146-192): split the raw
text on newlines and run the line-oriented parser.  Returns the question
body, the four options, and the validated answer number. -/
def parse_generated_text (text : Str) : Option (Str × List Str × Int) :=
  parseLines (splitChar '\n' text)

/-- The structured question record built by `generate_quiz`
(src/main.py lines 133-137). -/
structure Question where
  question : Str
  options : List Str
  answer : Str
deriving Repr, DecidableEq

/-- One loop iteration of `generate_quiz` after a successful reply
(src/main.py lines 130-139): parse the (already stripped) text, keep the
result only when `question`, `options` and `answer` are all truthy, and
resolve the answer text as `options[answer - 1]` (an out-of-range index
would raise and be skipped by the surrounding `except`; the validated
1..4 range makes that impossible). -/
def buildQuestion (text : Str) : Option Question :=
  match parse_generated_text text with
  | none => none
  | some (q, opts, a) =>
    if q ≠ [] ∧ opts ≠ [] ∧ a ≠ 0 then
      match opts.get? (a - 1).toNat with
      | some ans => some ⟨q, opts, ans⟩
      | none => none
    else none

/-- The outcome of one `chat_session.send_message` call: a transport or
service error (the `except` branch, src/main.py lines 140-141) or a
reply with raw text. -/
inductive Outcome where
  | error (msg : Str)
  | reply (text : Str)
deriving Repr, DecidableEq

/-- `generate_quiz` (src/main.py lines 104-143) over the outcomes of the
underlying service calls, one per iteration: an error is logged and
skipped; a reply is stripped (`response.text.strip()`, line 122), parsed
and appended when it yields a truthy question.  The prompt text (built
from the topic) does not influence this control flow. -/
def generate_quiz (outcomes : List Outcome) : List Question :=
  outcomes.filterMap (fun o =>
    match o with
    | Outcome.error _ => none
    | Outcome.reply t => buildQuestion (strip t))

/-- Topic Entry screen state: the "active" flag and the text buffer
(src/main.py lines 61-62). -/
structure MMState where
  active : Bool
  text : Str
deriving Repr, DecidableEq

/-- One input event of the Topic Entry loop, with the mouse-click case
reduced to whether the position hit the input box
(`input_box.collidepoint(event.pos)`, src/main.py line 71). -/
inductive MMEvent where
  | quit
  | mouseDown (inside : Bool)
  | keyReturn
  | keyBackspace
  | keyChar (c : Char)
deriving Repr, DecidableEq

/-- Result of handling one Topic Entry event. -/
inductive MMStep where
  | cont (s : MMState)
  | submit (topic : Str)
  | exitProc
deriving Repr, DecidableEq

/-- The event handler of `main_menu` (src/main.py lines 65-88): window
close exits the process; a mouse click toggles `active` when inside the
input box and clears it otherwise; while active, Return submits the
stripped non-empty buffer, Backspace drops the last character, and any
other key appends its character. -/
def main_menu_step (s : MMState) : MMEvent → MMStep
  | MMEvent.quit => MMStep.exitProc
  | MMEvent.mouseDown inside =>
    MMStep.cont ⟨if inside then !s.active else false, s.text⟩
  | MMEvent.keyReturn =>
    if s.active then
      if strip s.text ≠ [] then MMStep.submit (strip s.text) else MMStep.cont s
    else MMStep.cont s
  | MMEvent.keyBackspace =>
    if s.active then MMStep.cont ⟨s.active, s.text.dropLast⟩ else MMStep.cont s
  | MMEvent.keyChar c =>
    if s.active then MMStep.cont ⟨s.active, s.text ++ [c]⟩ else MMStep.cont s

/-- A mouse position (pygame `event.pos`). -/
structure Pos where
  x : Int
  y : Int
deriving Repr, DecidableEq

/-- A pygame `Rect(x, y, w, h)`. -/
structure Rect where
  x : Int
  y : Int
  w : Int
  h : Int
deriving Repr, DecidableEq

/-- pygame `Rect.collidepoint`: inside the rectangle, with points on the
right and bottom edges not counted as inside. -/
def collidepoint (r : Rect) (p : Pos) : Bool :=
  decide (r.x ≤ p.x) && decide (p.x < r.x + r.w) &&
  decide (r.y ≤ p.y) && decide (p.y < r.y + r.h)

/-- The option rectangle for display index `idx`:
`pygame.Rect(100, 200 + idx*60, 600, 50)` (src/main.py lines 211, 226). -/
def option_rect (idx : Nat) : Rect :=
  ⟨100, 200 + 60 * (idx : Int), 600, 50⟩

/-- Handling of one MOUSEBUTTONDOWN event in `run_quiz`
(src/main.py lines 209-216), given the question list and the current
(cursor, score) pair: iterate over the enumerated options of the current
question; on a rectangle hit compare the clicked option's text with the
stored answer, bump the score on equality, and advance the cursor.
The question data is the snapshot taken before the event loop
(lines 200-203). -/
def handleClick (questions : List Question) (st : Nat × Nat) (p : Pos) : Nat × Nat :=
  match questions.get? st.1 with
  | none => st
  | some qd =>
    qd.options.enum.foldl
      (fun acc io =>
        if collidepoint (option_rect io.1) p then
          (acc.1 + 1, acc.2 + (if io.2 = qd.answer then 1 else 0))
        else acc)
      st

/-- The `run_quiz` outer loop (src/main.py lines 199-234) driven by a
stream of click positions, one MOUSEBUTTONDOWN per frame: while the
cursor has not reached the end, consume the next click; when the cursor
reaches the end the loop exits with the final score.  `none` when the
click stream ends before the quiz does (the real loop would keep
polling). -/
def playClicks (questions : List Question) : List Pos → Nat × Nat → Option Nat
  | ps, st =>
    if questions.length ≤ st.1 then some st.2
    else
      match ps with
      | [] => none
      | p :: rest => playClicks questions rest (handleClick questions st p)

/-- `run_quiz` followed by `end_quiz(score, len(questions))`
(src/main.py lines 234, 236, 247): the Result screen reports the final
score over the total number of generated questions. -/
def run_quiz (questions : List Question) (clicks : List Pos) : Option (Nat × Nat) :=
  (playClicks questions clicks (0, 0)).map (fun score => (score, questions.length))

/-- The process exit status produced by Python `sys.exit(arg)`:
`sys.exit()` passes `None`, which is equivalent to status 0. -/
def sys_exit_code (arg : Option Int) : Int :=
  match arg with
  | none => 0
  | some n => n

/-- The four ways the program terminates. -/
inductive ExitPath where
  | missingKey
  | noQuestions
  | userClose
  | quizComplete
deriving Repr, DecidableEq

/-- The exit status on each termination path of src/main.py:
`sys.exit(1)` for a missing API key (line 15); bare `sys.exit()` when
`generate_quiz` returned no questions (line 264), on window close
(lines 68, 207, 241), and after the Result screen (line 244). -/
def exit_code : ExitPath → Int
  | ExitPath.missingKey => sys_exit_code (some 1)
  | ExitPath.noQuestions => sys_exit_code none
  | ExitPath.userClose => sys_exit_code none
  | ExitPath.quizComplete => sys_exit_code none

/-- Line `i` of the 6-line template for an option: `"{i}. {text}"`. -/
def optLine (i : Nat) (o : Str) : Str := digitChar i :: '.' :: ' ' :: o

/-- The raw text assembled from the 6-line template of the claims:
`Question: {q}`, the four option lines, `Answer: {digit}`. -/
def mkRaw (qt o1 o2 o3 o4 : Str) (a : Nat) : Str :=
  qpat ++ ' ' :: qt ++
  '\n' :: optLine 1 o1 ++
  '\n' :: optLine 2 o2 ++
  '\n' :: optLine 3 o3 ++
  '\n' :: optLine 4 o4 ++
  '\n' :: apat ++ [' ', digitChar a]

/-- `raw` exactly follows the 6-line template with question text `qt`,
option texts `o1..o4` and answer digit `a`: the placeholder texts carry
no newline (otherwise the input would not be 6 lines) and the answer is
a digit in [1,4]. -/
def FollowsTemplate (raw qt o1 o2 o3 o4 : Str) (a : Nat) : Prop :=
  raw = mkRaw qt o1 o2 o3 o4 a ∧
  '\n' ∉ qt ∧ '\n' ∉ o1 ∧ '\n' ∉ o2 ∧ '\n' ∉ o3 ∧ '\n' ∉ o4 ∧
  1 ≤ a ∧ a ≤ 4

instance (raw qt o1 o2 o3 o4 : Str) (a : Nat) :
    Decidable (FollowsTemplate raw qt o1 o2 o3 o4 a) := by
  unfold FollowsTemplate
  infer_instance

/-- A click at position `p` is "correct" for question `k`: it lands in the
rectangle of one of the four displayed options and that option's text
equals the question's stored `answer`. -/
def CorrectClick (questions : List Question) (k : Nat) (p : Pos) : Prop :=
  ∃ qd i, questions.get? k = some qd ∧ i < 4 ∧
    collidepoint (option_rect i) p = true ∧ qd.options.getD i [] = qd.answer

/-- A sample well-formed service reply, used to instantiate theorems. -/
def sampleReply : Outcome :=
  Outcome.reply ("Question: q\n1. a\n2. b\n3. c\n4. d\nAnswer: 1".toList)

/-- Five sample well-formed replies (one full generation batch). -/
def sampleOutcomes : List Outcome := List.replicate 5 sampleReply

/-- A sample three-question quiz (answers at display indices 0, 2, 3). -/
def sampleQuiz : List Question :=
  [⟨"q1".toList, ["a".toList, "b".toList, "c".toList, "d".toList], "a".toList⟩,
   ⟨"q2".toList, ["a".toList, "b".toList, "c".toList, "d".toList], "c".toList⟩,
   ⟨"q3".toList, ["a".toList, "b".toList, "c".toList, "d".toList], "d".toList⟩]

/-- Clicks hitting the correct option of each question of `sampleQuiz`. -/
def sampleClicks : List Pos := [⟨150, 210⟩, ⟨150, 330⟩, ⟨150, 390⟩]


theorem splitChar_ne_nil (c : Char) (s : Str) : splitChar c s ≠ [] := by
  induction s with
  | nil => simp [splitChar]
  | cons x xs ih =>
    simp only [splitChar]
    split
    · simp
    · match h : splitChar c xs with
      | [] => simp
      | y :: ys => simp

theorem splitChar_no_sep (c : Char) (s : Str) (h : c ∉ s) : splitChar c s = [s] := by
  induction s with
  | nil => rfl
  | cons x xs ih =>
    simp only [List.mem_cons, not_or] at h
    simp only [splitChar]
    rw [if_neg (fun hx => h.1 hx.symm)]
    rw [ih h.2]

theorem splitChar_append (c : Char) (a b : Str) :
    splitChar c (a ++ c :: b) = splitChar c a ++ splitChar c b := by
  induction a with
  | nil => simp [splitChar]
  | cons x xs ih =>
    simp only [List.cons_append, splitChar, List.append_eq]
    split
    · rw [ih]
      rfl
    · rw [ih]
      match hx : splitChar c xs with
      | [] => exact absurd hx (splitChar_ne_nil c xs)
      | y :: ys => simp

theorem isPrefixOf_append_self (p r : Str) : p.isPrefixOf (p ++ r) = true := by
  induction p with
  | nil => simp [List.isPrefixOf]
  | cons x xs ih => simpa [List.isPrefixOf] using ih

theorem exists_of_isPrefixOf (p s : Str) (h : p.isPrefixOf s = true) :
    ∃ r, s = p ++ r := by
  induction p generalizing s with
  | nil => exact ⟨s, rfl⟩
  | cons x xs ih =>
    match s with
    | [] => simp [List.isPrefixOf] at h
    | y :: ys =>
      simp only [List.isPrefixOf, Bool.and_eq_true, beq_iff_eq] at h
      obtain ⟨r, hr⟩ := ih ys h.2
      exact ⟨r, by rw [h.1, hr]; rfl⟩

theorem removeAllAux_congr (pat : Str) :
    ∀ (f1 : Nat) (s : Str), s.length ≤ f1 → ∀ (f2 : Nat), s.length ≤ f2 →
      removeAllAux pat f1 s = removeAllAux pat f2 s := by
  intro f1
  induction f1 with
  | zero =>
    intro s hs f2 _
    have : s = [] := List.eq_nil_of_length_eq_zero (by omega)
    subst this
    cases f2 <;> rfl
  | succ f ih =>
    intro s hs f2 hs2
    match s with
    | [] => cases f2 <;> rfl
    | x :: xs =>
      match f2 with
      | 0 => simp at hs2
      | g + 1 =>
        rw [removeAllAux, removeAllAux]
        split
        case isTrue hcond =>
          have hplen : 0 < pat.length := List.length_pos.mpr hcond.1
          have hd : ((x :: xs).drop pat.length).length ≤ f := by
            simp only [List.length_drop, List.length_cons]
            simp only [List.length_cons] at hs
            omega
          have hd2 : ((x :: xs).drop pat.length).length ≤ g := by
            simp only [List.length_drop, List.length_cons]
            simp only [List.length_cons] at hs2
            omega
          exact ih _ hd g hd2
        case isFalse hcond =>
          have hx : xs.length ≤ f := by
            simp only [List.length_cons] at hs
            omega
          have hx2 : xs.length ≤ g := by
            simp only [List.length_cons] at hs2
            omega
          rw [ih xs hx g hx2]

theorem removeAll_cons (pat : Str) (x : Char) (xs : Str) :
    removeAll pat (x :: xs) =
      if pat ≠ [] ∧ pat.isPrefixOf (x :: xs) then
        removeAll pat ((x :: xs).drop pat.length)
      else x :: removeAll pat xs := by
  show removeAllAux pat (xs.length + 1) (x :: xs) = _
  rw [removeAllAux]
  split
  case isTrue hcond =>
    have hplen : 0 < pat.length := List.length_pos.mpr hcond.1
    apply removeAllAux_congr
    · simp only [List.length_drop, List.length_cons]
      omega
    · exact le_refl _
  case isFalse hcond =>
    rfl

theorem removeAll_nil (pat : Str) : removeAll pat [] = [] := rfl

theorem removeAll_cancel (pat rest : Str) (hp : pat ≠ []) :
    removeAll pat (pat ++ rest) = removeAll pat rest := by
  match pat, hp with
  | x :: xs, _ =>
    have hc : (x :: xs) ++ rest = x :: (xs ++ rest) := rfl
    rw [hc, removeAll_cons]
    rw [if_pos ⟨by simp, by simpa using isPrefixOf_append_self (x :: xs) rest⟩]
    simp [List.drop_left]

theorem removeAll_no_occurrence (pat s : Str) (h : ¬ pat <:+: s) :
    removeAll pat s = s := by
  induction s with
  | nil => exact removeAll_nil pat
  | cons x xs ih =>
    rw [removeAll_cons]
    rw [if_neg]
    · rw [ih (fun hi => h (hi.trans (List.suffix_cons x xs).isInfix))]
    · rintro ⟨hne, hpre⟩
      obtain ⟨r, hr⟩ := exists_of_isPrefixOf _ _ hpre
      exact h ⟨[], r, by simp [hr]⟩

theorem strip_nil : strip [] = [] := rfl

theorem strip_cons_space (s : Str) : strip (' ' :: s) = strip s := by
  simp [strip, stripLeft, List.dropWhile, pySpace]

theorem pyInt_digitChar (a : Nat) (h1 : 1 ≤ a) (h2 : a ≤ 4) :
    pyInt [digitChar a] = some (a : Int) := by
  interval_cases a <;> decide

theorem parseOption_optLine (i : Nat) (h1 : 1 ≤ i) (h2 : i ≤ 4) (o : Str) :
    parseOption i (optLine i o) = some (strip o) := by
  have hd : digitChar i ≠ '.' := by interval_cases i <;> decide
  simp [parseOption, optLine, List.isPrefixOf, splitOnce, hd, strip_cons_space]

theorem parseSix_inv (l0 l1 l2 l3 l4 l5 q : Str) (opts : List Str) (a : Int)
    (h : parseSix l0 l1 l2 l3 l4 l5 = some (q, opts, a)) :
    q = strip (removeAll qpat l0) ∧ opts.length = 4 ∧ 1 ≤ a ∧ a ≤ 4 ∧
      qpat.isPrefixOf l0 = true := by
  unfold parseSix at h
  split at h
  case isFalse => simp at h
  case isTrue hq =>
    split at h
    case h_2 => simp at h
    case h_1 o1 o2 o3 o4 ho1 ho2 ho3 ho4 =>
      split at h
      case isFalse => simp at h
      case isTrue ha =>
        split at h
        case h_2 => simp at h
        case h_1 av hav =>
          split at h
          case isTrue => simp at h
          case isFalse hrange =>
            simp only [Option.some_inj, Prod.mk.injEq] at h
            push_neg at hrange
            obtain ⟨h1, h2, h3⟩ := h
            subst h3
            exact ⟨h1.symm, by rw [← h2]; rfl, hrange.1, hrange.2, hq⟩

theorem parseSix_none_of_bad_answer (l0 l1 l2 l3 l4 l5 : Str)
    (h : pyInt (strip (removeAll apat l5)) = none ∨
      ∃ n, pyInt (strip (removeAll apat l5)) = some n ∧ (n < 1 ∨ 4 < n)) :
    parseSix l0 l1 l2 l3 l4 l5 = none := by
  unfold parseSix
  split
  case isFalse => rfl
  case isTrue hq =>
    split
    case h_2 => rfl
    case h_1 o1 o2 o3 o4 ho1 ho2 ho3 ho4 =>
      split
      case isFalse => rfl
      case isTrue ha =>
        split
        case h_2 => rfl
        case h_1 av hav =>
          rcases h with hn | ⟨n, hn, hrange⟩
          · rw [hav] at hn
            simp at hn
          · rw [hav, Option.some_inj] at hn
            subst hn
            rw [if_pos hrange]

theorem parseLines_short (ls : List Str) (h : ls.length < 6) : parseLines ls = none := by
  match ls with
  | [] => rfl
  | [_] => rfl
  | [_, _] => rfl
  | [_, _, _] => rfl
  | [_, _, _, _] => rfl
  | [_, _, _, _, _] => rfl
  | _ :: _ :: _ :: _ :: _ :: _ :: _ =>
    simp only [List.length_cons] at h
    omega

theorem infix_length_le (p s : Str) (h : p <:+: s) : p.length ≤ s.length := by
  obtain ⟨u, v, huv⟩ := h
  rw [← huv]
  simp only [List.length_append]
  omega

theorem strip_single (c : Char) (h : pySpace c = false) : strip [c] = [c] := by
  simp [strip, stripLeft, List.dropWhile, h]

theorem removeAll_marker_space (pat : Str) (hp : pat ≠ []) (s : Str)
    (hno : ¬ pat <:+: s) (hc : ∀ r, pat ≠ ' ' :: r) :
    removeAll pat (pat ++ ' ' :: s) = ' ' :: s := by
  rw [removeAll_cancel pat (' ' :: s) hp]
  apply removeAll_no_occurrence
  rintro ⟨u, v, huv⟩
  match u, huv with
  | [], huv =>
    match pat, hp, hc, huv with
    | c :: p, _, hc, huv =>
      simp only [List.nil_append, List.cons_append, List.cons.injEq] at huv
      exact hc p (by rw [huv.1])
  | _ :: u2, huv =>
    simp only [List.cons_append, List.cons.injEq] at huv
    exact hno ⟨u2, v, huv.2⟩

theorem not_mem_append_cons (c d : Char) (p s : Str) (hp : c ∉ p) (hcd : c ≠ d)
    (hs : c ∉ s) : c ∉ p ++ d :: s := by
  intro hmem
  rcases List.mem_append.mp hmem with hA | hB
  · exact hp hA
  · rcases List.mem_cons.mp hB with hh | ht
    · exact hcd hh
    · exact hs ht

theorem newline_not_mem_optLine (i : Nat) (h1 : 1 ≤ i) (h2 : i ≤ 4) (o : Str)
    (ho : '\n' ∉ o) : '\n' ∉ optLine i o := by
  have hdi : ('\n' : Char) ≠ digitChar i := by interval_cases i <;> decide
  simp only [optLine, List.mem_cons, not_or]
  exact ⟨hdi, by decide, by decide, ho⟩

theorem splitChar_mkRaw (qt o1 o2 o3 o4 : Str) (a : Nat) (ha1 : 1 ≤ a) (ha2 : a ≤ 4)
    (h0 : '\n' ∉ qt) (hn1 : '\n' ∉ o1) (hn2 : '\n' ∉ o2) (hn3 : '\n' ∉ o3)
    (hn4 : '\n' ∉ o4) :
    splitChar '\n' (mkRaw qt o1 o2 o3 o4 a) =
      [qpat ++ ' ' :: qt, optLine 1 o1, optLine 2 o2, optLine 3 o3, optLine 4 o4,
        apat ++ [' ', digitChar a]] := by
  have hda : ('\n' : Char) ≠ digitChar a := by interval_cases a <;> decide
  have e : mkRaw qt o1 o2 o3 o4 a =
      (qpat ++ ' ' :: qt) ++ '\n' ::
        (optLine 1 o1 ++ '\n' ::
          (optLine 2 o2 ++ '\n' ::
            (optLine 3 o3 ++ '\n' ::
              (optLine 4 o4 ++ '\n' :: (apat ++ [' ', digitChar a]))))) := by
    simp [mkRaw, optLine]
  rw [e, splitChar_append, splitChar_append, splitChar_append, splitChar_append,
    splitChar_append]
  rw [splitChar_no_sep _ _ (not_mem_append_cons _ _ _ _ (by decide) (by decide) h0)]
  rw [splitChar_no_sep _ _ (newline_not_mem_optLine 1 (by norm_num) (by norm_num) o1 hn1)]
  rw [splitChar_no_sep _ _ (newline_not_mem_optLine 2 (by norm_num) (by norm_num) o2 hn2)]
  rw [splitChar_no_sep _ _ (newline_not_mem_optLine 3 (by norm_num) (by norm_num) o3 hn3)]
  rw [splitChar_no_sep _ _ (newline_not_mem_optLine 4 (by norm_num) (by norm_num) o4 hn4)]
  rw [splitChar_no_sep _ _ (not_mem_append_cons '\n' ' ' apat [digitChar a] (by decide)
    (by decide) (by simpa using hda))]
  rfl

theorem removeAll_answer_line (a : Nat) :
    removeAll apat (apat ++ [' ', digitChar a]) = [' ', digitChar a] := by
  have : (([' ', digitChar a]) : Str) = ' ' :: [digitChar a] := rfl
  rw [this]
  apply removeAll_marker_space apat (by decide)
  · intro hinf
    have hle := infix_length_le _ _ hinf
    have h7 : apat.length = 7 := rfl
    simp [h7] at hle
  · intro r hr
    rw [show apat = 'A' :: "nswer:".toList from rfl] at hr
    simp only [List.cons.injEq] at hr
    exact absurd hr.1 (by decide)

theorem parse_mkRaw (qt o1 o2 o3 o4 : Str) (a : Nat) (ha1 : 1 ≤ a) (ha2 : a ≤ 4)
    (h0 : '\n' ∉ qt) (hn1 : '\n' ∉ o1) (hn2 : '\n' ∉ o2) (hn3 : '\n' ∉ o3)
    (hn4 : '\n' ∉ o4) :
    parse_generated_text (mkRaw qt o1 o2 o3 o4 a) =
      some (strip (removeAll qpat (qpat ++ ' ' :: qt)),
        [strip o1, strip o2, strip o3, strip o4], (a : Int)) := by
  have hsp : pySpace (digitChar a) = false := by interval_cases a <;> decide
  unfold parse_generated_text
  rw [splitChar_mkRaw qt o1 o2 o3 o4 a ha1 ha2 h0 hn1 hn2 hn3 hn4]
  simp only [parseLines]
  unfold parseSix
  rw [if_pos (isPrefixOf_append_self qpat (' ' :: qt))]
  rw [parseOption_optLine 1 (by norm_num) (by norm_num) o1,
    parseOption_optLine 2 (by norm_num) (by norm_num) o2,
    parseOption_optLine 3 (by norm_num) (by norm_num) o3,
    parseOption_optLine 4 (by norm_num) (by norm_num) o4]
  show (if apat.isPrefixOf (apat ++ [' ', digitChar a]) = true then _ else _) = _
  rw [if_pos (isPrefixOf_append_self apat [' ', digitChar a])]
  rw [removeAll_answer_line a, strip_cons_space, strip_single _ hsp,
    pyInt_digitChar a ha1 ha2]
  show (if (a : Int) < 1 ∨ 4 < (a : Int) then none else _) = _
  rw [if_neg (by push_neg; constructor <;> omega)]

theorem removeAll_question_line (qt : Str) (hno : ¬ qpat <:+: qt) :
    removeAll qpat (qpat ++ ' ' :: qt) = ' ' :: qt := by
  apply removeAll_marker_space qpat (by decide) qt hno
  intro r hr
  rw [show qpat = 'Q' :: "uestion:".toList from rfl] at hr
  simp only [List.cons.injEq] at hr
  exact absurd hr.1 (by decide)

theorem buildQuestion_mkRaw (qt o1 o2 o3 o4 : Str) (a : Nat) (ha1 : 1 ≤ a) (ha2 : a ≤ 4)
    (h0 : '\n' ∉ qt) (hn1 : '\n' ∉ o1) (hn2 : '\n' ∉ o2) (hn3 : '\n' ∉ o3)
    (hn4 : '\n' ∉ o4) (hnoq : ¬ qpat <:+: qt) (hne : strip qt ≠ []) :
    buildQuestion (mkRaw qt o1 o2 o3 o4 a) =
      some ⟨strip qt, [strip o1, strip o2, strip o3, strip o4],
        [strip o1, strip o2, strip o3, strip o4].getD (a - 1) []⟩ := by
  have hp := parse_mkRaw qt o1 o2 o3 o4 a ha1 ha2 h0 hn1 hn2 hn3 hn4
  rw [removeAll_question_line qt hnoq, strip_cons_space] at hp
  simp only [buildQuestion, hp]
  rw [if_pos ⟨hne, by simp, by omega⟩]
  have hidx : ((a : Int) - 1).toNat = a - 1 := by omega
  rw [hidx]
  interval_cases a <;> rfl

theorem parseLines_inv (ls : List Str) (q : Str) (opts : List Str) (a : Int)
    (h : parseLines ls = some (q, opts, a)) :
    ∃ l0 l1 l2 l3 l4 l5 rest, ls = l0 :: l1 :: l2 :: l3 :: l4 :: l5 :: rest ∧
      parseSix l0 l1 l2 l3 l4 l5 = some (q, opts, a) := by
  rcases ls with _ | ⟨l0, _ | ⟨l1, _ | ⟨l2, _ | ⟨l3, _ | ⟨l4, _ | ⟨l5, rest⟩⟩⟩⟩⟩⟩ <;>
    first
      | exact ⟨_, _, _, _, _, _, _, rfl, h⟩
      | simp [parseLines] at h

theorem parseSix_none_of_bad_question (l0 l1 l2 l3 l4 l5 : Str)
    (h : qpat.isPrefixOf l0 = false) : parseSix l0 l1 l2 l3 l4 l5 = none := by
  simp [parseSix, h]

theorem exists_six_cons (ls : List Str) (h : 6 ≤ ls.length) :
    ∃ l0 l1 l2 l3 l4 l5 rest, ls = l0 :: l1 :: l2 :: l3 :: l4 :: l5 :: rest := by
  rcases ls with _ | ⟨l0, _ | ⟨l1, _ | ⟨l2, _ | ⟨l3, _ | ⟨l4, _ | ⟨l5, rest⟩⟩⟩⟩⟩⟩ <;>
    first
      | exact ⟨_, _, _, _, _, _, _, rfl⟩
      | (simp only [List.length_cons, List.length_nil] at h; omega)

theorem parse_inv (t q : Str) (opts : List Str) (a : Int)
    (h : parse_generated_text t = some (q, opts, a)) :
    opts.length = 4 ∧ 1 ≤ a ∧ a ≤ 4 := by
  unfold parse_generated_text at h
  obtain ⟨l0, l1, l2, l3, l4, l5, rest, hls, hsix⟩ := parseLines_inv _ _ _ _ h
  have hi := parseSix_inv l0 l1 l2 l3 l4 l5 q opts a hsix
  exact ⟨hi.2.1, hi.2.2.1, hi.2.2.2.1⟩

theorem buildQuestion_inv (t : Str) (qu : Question) (h : buildQuestion t = some qu) :
    qu.options.length = 4 ∧ qu.answer ∈ qu.options := by
  unfold buildQuestion at h
  split at h
  case h_1 => simp at h
  case h_2 q opts a hp =>
    split at h
    case isFalse => simp at h
    case isTrue hcond =>
      split at h
      case h_2 => simp at h
      case h_1 ans hans =>
        rw [Option.some_inj] at h
        subst h
        have hi := parse_inv t q opts a hp
        exact ⟨hi.1, List.get?_mem hans⟩

theorem length_four_destruct (l : List Str) (h : l.length = 4) :
    ∃ a0 a1 a2 a3, l = [a0, a1, a2, a3] := by
  rcases l with _ | ⟨a0, _ | ⟨a1, _ | ⟨a2, _ | ⟨a3, _ | ⟨a4, tl⟩⟩⟩⟩⟩ <;>
    first
      | exact ⟨_, _, _, _, rfl⟩
      | (simp only [List.length_cons, List.length_nil] at h; omega)

theorem collide_option_rect_iff (i : Nat) (p : Pos) :
    collidepoint (option_rect i) p = true ↔
      (100 ≤ p.x ∧ p.x < 700 ∧
        200 + 60 * (i : Int) ≤ p.y ∧ p.y < 250 + 60 * (i : Int)) := by
  simp only [collidepoint, option_rect, Bool.and_eq_true, decide_eq_true_eq]
  constructor
  · rintro ⟨⟨⟨h1, h2⟩, h3⟩, h4⟩
    refine ⟨h1, by omega, h3, by omega⟩
  · rintro ⟨h1, h2, h3, h4⟩
    refine ⟨⟨⟨h1, by omega⟩, h3⟩, by omega⟩

theorem collide_option_rect_unique (i j : Nat) (p : Pos) (hij : i ≠ j)
    (hi : collidepoint (option_rect i) p = true) :
    ¬ collidepoint (option_rect j) p = true := by
  intro hj
  rw [collide_option_rect_iff] at hi hj
  have : (i : Int) ≠ (j : Int) := by exact_mod_cast hij
  omega

theorem handleClick_hit (questions : List Question) (cq score : Nat) (p : Pos)
    (qd : Question) (i : Nat) (hqd : questions.get? cq = some qd)
    (hlen : qd.options.length = 4) (hi : i < 4)
    (hcol : collidepoint (option_rect i) p = true) :
    handleClick questions (cq, score) p =
      (cq + 1, score + (if qd.options.getD i [] = qd.answer then 1 else 0)) := by
  obtain ⟨a0, a1, a2, a3, hopts⟩ := length_four_destruct qd.options hlen
  unfold handleClick
  rw [hqd]
  simp only [hopts, List.enum, List.enumFrom, List.foldl]
  interval_cases i
  · rw [if_pos hcol,
      if_neg (collide_option_rect_unique 0 1 p (by omega) hcol),
      if_neg (collide_option_rect_unique 0 2 p (by omega) hcol),
      if_neg (collide_option_rect_unique 0 3 p (by omega) hcol)]
    simp [List.getD]
  · rw [if_neg (collide_option_rect_unique 1 0 p (by omega) hcol),
      if_pos hcol,
      if_neg (collide_option_rect_unique 1 2 p (by omega) hcol),
      if_neg (collide_option_rect_unique 1 3 p (by omega) hcol)]
    simp [List.getD]
  · rw [if_neg (collide_option_rect_unique 2 0 p (by omega) hcol),
      if_neg (collide_option_rect_unique 2 1 p (by omega) hcol),
      if_pos hcol,
      if_neg (collide_option_rect_unique 2 3 p (by omega) hcol)]
    simp [List.getD]
  · rw [if_neg (collide_option_rect_unique 3 0 p (by omega) hcol),
      if_neg (collide_option_rect_unique 3 1 p (by omega) hcol),
      if_neg (collide_option_rect_unique 3 2 p (by omega) hcol),
      if_pos hcol]
    simp [List.getD]

theorem playClicks_all_correct (questions : List Question)
    (hlen4 : ∀ q ∈ questions, q.options.length = 4) :
    ∀ (clicks : List Pos) (cq score : Nat),
      cq + clicks.length = questions.length →
      (∀ k, k < clicks.length → CorrectClick questions (cq + k) (clicks.getD k ⟨0, 0⟩)) →
      playClicks questions clicks (cq, score) = some (score + clicks.length) := by
  intro clicks
  induction clicks with
  | nil =>
    intro cq score hsum hcor
    unfold playClicks
    rw [if_pos (by simp at hsum; omega)]
    simp
  | cons p rest ih =>
    intro cq score hsum hcor
    simp only [List.length_cons] at hsum
    unfold playClicks
    rw [if_neg (by omega)]
    obtain ⟨qd, i, hqd, hi, hcol, hans⟩ := hcor 0 (by simp)
    rw [show cq + 0 = cq from rfl] at hqd
    have hq4 : qd.options.length = 4 := hlen4 qd (List.get?_mem hqd)
    have hstep := handleClick_hit questions cq score
      ((p :: rest).getD 0 ⟨0, 0⟩) qd i hqd hq4 hi hcol
    simp only [List.getD_cons_zero] at hstep
    show playClicks questions rest (handleClick questions (cq, score) p) =
      some (score + (p :: rest).length)
    rw [hstep, if_pos hans]
    have hrest := ih (cq + 1) (score + 1) (by omega) (fun k hk => by
      have h2 := hcor (k + 1) (by simp; omega)
      simpa [Nat.add_assoc, Nat.add_comm 1 k] using h2)
    rw [hrest]
    simp only [List.length_cons, Option.some_inj]
    omega

/-- C1 (counterexample): an input that exactly follows the 6-line template
but whose question text itself contains the substring "Question:" is not
parsed to the trimmed question body the claim demands — the source uses
`line.replace("Question:", "")`, which removes the inner occurrence too. -/
theorem c1_counterexample :
    FollowsTemplate
      ("Question: Ask Question: twice\n1. w\n2. x\n3. y\n4. z\nAnswer: 2".toList)
      ("Ask Question: twice".toList) ("w".toList) ("x".toList) ("y".toList)
      ("z".toList) 2 ∧
    buildQuestion
      ("Question: Ask Question: twice\n1. w\n2. x\n3. y\n4. z\nAnswer: 2".toList) ≠
      some ⟨strip ("Ask Question: twice".toList),
        [strip ("w".toList), strip ("x".toList), strip ("y".toList),
          strip ("z".toList)],
        [strip ("w".toList), strip ("x".toList), strip ("y".toList),
          strip ("z".toList)].getD (2 - 1) []⟩ := by
  constructor
  · decide
  · decide

/-- C1 (amended): for every raw input that exactly follows the 6-line
template, provided the question text contains no further occurrence of
"Question:" and is non-empty after trimming, parsing succeeds and the
generator's Question holds the trimmed question body, the four trimmed
options in order, and as answer the option text at the 1-based Answer
index. -/
theorem c1_template_parse (raw qt o1 o2 o3 o4 : Str) (a : Nat)
    (ht : FollowsTemplate raw qt o1 o2 o3 o4 a)
    (hq : ¬ qpat <:+: qt) (hne : strip qt ≠ []) :
    buildQuestion raw =
      some ⟨strip qt, [strip o1, strip o2, strip o3, strip o4],
        [strip o1, strip o2, strip o3, strip o4].getD (a - 1) []⟩ := by
  obtain ⟨hraw, h0, hn1, hn2, hn3, hn4, ha1, ha2⟩ := ht
  subst hraw
  exact buildQuestion_mkRaw qt o1 o2 o3 o4 a ha1 ha2 h0 hn1 hn2 hn3 hn4 hq hne

/-- C1 (witness): the spec's end-to-end scenario 1. -/
theorem c1_template_parse_witness :
    buildQuestion ("Question: What is 2+2?\n1. 3\n2. 4\n3. 5\n4. 6\nAnswer: 2".toList) =
      some ⟨"What is 2+2?".toList, ["3".toList, "4".toList, "5".toList, "6".toList],
        "4".toList⟩ := by
  have h := c1_template_parse
    ("Question: What is 2+2?\n1. 3\n2. 4\n3. 5\n4. 6\nAnswer: 2".toList)
    ("What is 2+2?".toList) ("3".toList) ("4".toList) ("5".toList) ("6".toList) 2
    (by decide) (by decide) (by decide)
  rw [h]
  decide

/-- C2 (counterexample): on the zero-questions path `main` calls bare
`sys.exit()` (src/main.py line 264), whose process exit status is 0, not
the non-zero status the claim requires. -/
theorem c2_counterexample : exit_code ExitPath.noQuestions = 0 := rfl

/-- C2 (amended): when the generator produces zero questions the program
prints a diagnostic and terminates, but with exit status 0 (bare
`sys.exit()`); the exit status is non-zero only on the missing-API-key
startup path. -/
theorem c2_exit_codes :
    exit_code ExitPath.noQuestions = 0 ∧
    (∀ p, exit_code p ≠ 0 ↔ p = ExitPath.missingKey) := by
  refine ⟨rfl, ?_⟩
  intro p
  cases p <;> simp [exit_code, sys_exit_code]

/-- C3: every Question in the generator's result list has exactly 4
options and its answer text is one of them. -/
theorem c3_question_invariant (outcomes : List Outcome) (qu : Question)
    (h : qu ∈ generate_quiz outcomes) :
    qu.options.length = 4 ∧ qu.answer ∈ qu.options := by
  rw [generate_quiz, List.mem_filterMap] at h
  obtain ⟨o, _, ho⟩ := h
  match o, ho with
  | Outcome.error m, ho => simp at ho
  | Outcome.reply t, ho => exact buildQuestion_inv _ _ ho

/-- C3 (witness): the invariant at a concrete generated quiz. -/
theorem c3_question_invariant_witness :
    (Question.mk ("What is 2+2?".toList)
      ["3".toList, "4".toList, "5".toList, "6".toList] ("4".toList)).options.length = 4 ∧
    (Question.mk ("What is 2+2?".toList)
      ["3".toList, "4".toList, "5".toList, "6".toList] ("4".toList)).answer ∈
      (Question.mk ("What is 2+2?".toList)
        ["3".toList, "4".toList, "5".toList, "6".toList] ("4".toList)).options :=
  c3_question_invariant
    [Outcome.reply ("Question: What is 2+2?\n1. 3\n2. 4\n3. 5\n4. 6\nAnswer: 2".toList)]
    _ (by decide)

/-- C5 (counterexample): the parsed question body is not "the text after
the prefix, trimmed" when "Question:" also occurs inside the question
text: `replace` removes the inner occurrence too. -/
theorem c5_counterexample :
    parse_generated_text
      ("Question: Ask Question: twice\n1. a\n2. b\n3. c\n4. d\nAnswer: 1".toList) =
      some ("Ask  twice".toList,
        ["a".toList, "b".toList, "c".toList, "d".toList], 1) ∧
    "Ask  twice".toList ≠
      strip (afterMarker qpat ("Question: Ask Question: twice".toList)) := by
  constructor
  · decide
  · decide

/-- C5 (amended): on success the question body is line 0 with every
occurrence of "Question:" removed, then trimmed (this equals the text
after the prefix, trimmed, whenever "Question:" does not reoccur); and
when line 0 lacks the "Question:" prefix, parsing fails. -/
theorem c5_question_line (text q : Str) (opts : List Str) (a : Int) (l0 : Str)
    (rest : List Str) (hsplit : splitChar '\n' text = l0 :: rest) :
    (parse_generated_text text = some (q, opts, a) →
      q = strip (removeAll qpat l0)) ∧
    (5 ≤ rest.length → qpat.isPrefixOf l0 = false →
      parse_generated_text text = none) := by
  constructor
  · intro h
    obtain ⟨m0, m1, m2, m3, m4, m5, mrest, hls, hsix⟩ :=
      parseLines_inv _ _ _ _ (by rw [← h]; rfl : parseLines (splitChar '\n' text) = some (q, opts, a))
    rw [hsplit] at hls
    have hm0 : m0 = l0 := (List.cons.injEq _ _ _ _ ▸ hls.symm).1
    rw [← hm0]
    exact (parseSix_inv m0 m1 m2 m3 m4 m5 q opts a hsix).1
  · intro hlen hpref
    unfold parse_generated_text
    rw [hsplit]
    obtain ⟨r0, r1, r2, r3, r4, rr, hr⟩ :
        ∃ r0 r1 r2 r3 r4 rr, rest = r0 :: r1 :: r2 :: r3 :: r4 :: rr := by
      obtain ⟨a0, a1, a2, a3, a4, a5, rr, hre⟩ :=
        exists_six_cons (l0 :: rest) (by simp; omega)
      rcases List.cons.injEq _ _ _ _ ▸ hre with ⟨_, h2⟩
      exact ⟨a1, a2, a3, a4, a5, rr, h2⟩
    rw [hr]
    exact parseSix_none_of_bad_question l0 r0 r1 r2 r3 r4 hpref

/-- C5 (witness): a success instance and a missing-prefix failure. -/
theorem c5_question_line_witness :
    "hello".toList = strip (removeAll qpat ("Question: hello".toList)) ∧
    parse_generated_text ("Oops: hello\n1. a\n2. b\n3. c\n4. d\nAnswer: 3".toList) =
      none := by
  constructor
  · exact (c5_question_line
      ("Question: hello\n1. a\n2. b\n3. c\n4. d\nAnswer: 3".toList)
      ("hello".toList) ["a".toList, "b".toList, "c".toList, "d".toList] 3
      ("Question: hello".toList)
      ["1. a".toList, "2. b".toList, "3. c".toList, "4. d".toList,
        "Answer: 3".toList]
      (by decide)).1 (by decide)
  · exact (c5_question_line
      ("Oops: hello\n1. a\n2. b\n3. c\n4. d\nAnswer: 3".toList)
      [] [] 0 ("Oops: hello".toList)
      ["1. a".toList, "2. b".toList, "3. c".toList, "4. d".toList,
        "Answer: 3".toList]
      (by decide)).2 (by decide) (by decide)

/-- C6 (counterexample): a click inside the input region while the flag
is already set makes the flag false — the source toggles
(`active = not active`, src/main.py line 72), it does not set true. -/
theorem c6_counterexample :
    main_menu_step ⟨true, []⟩ (MMEvent.mouseDown true) = MMStep.cont ⟨false, []⟩ ∧
    MMStep.cont (MMState.mk false []) ≠ MMStep.cont ⟨true, []⟩ := by
  constructor
  · rfl
  · decide

/-- C6 (amended): a click inside the input region toggles the "active"
flag, and a click outside sets it false. -/
theorem c6_click_toggle (s : MMState) :
    main_menu_step s (MMEvent.mouseDown true) = MMStep.cont ⟨!s.active, s.text⟩ ∧
    main_menu_step s (MMEvent.mouseDown false) = MMStep.cont ⟨false, s.text⟩ := by
  constructor <;> rfl

/-- C7 (counterexample): an input with a seventh (empty) line after the
Answer line still parses — the source only rejects fewer than 6 lines
(`len(lines) < 6`), it never rejects extra ones. -/
theorem c7_counterexample :
    (splitChar '\n'
      ("Question: q\n1. a\n2. b\n3. c\n4. d\nAnswer: 1\n".toList)).length = 7 ∧
    (parse_generated_text
      ("Question: q\n1. a\n2. b\n3. c\n4. d\nAnswer: 1\n".toList)).isSome = true := by
  constructor
  · decide
  · decide

/-- C7 (amended): the parser requires at least 6 lines; lines beyond the
sixth are ignored, so appending extra lines to an input that already has
6 or more lines never changes the parse result. -/
theorem c7_extra_lines (t extra : Str) (h : 6 ≤ (splitChar '\n' t).length) :
    parse_generated_text (t ++ '\n' :: extra) = parse_generated_text t := by
  unfold parse_generated_text
  rw [splitChar_append]
  obtain ⟨l0, l1, l2, l3, l4, l5, rest, hls⟩ := exists_six_cons (splitChar '\n' t) h
  rw [hls]
  simp only [List.cons_append]
  rfl

/-- C7 (witness): appending a junk line to a valid 6-line input leaves
the parse result unchanged. -/
theorem c7_extra_lines_witness :
    parse_generated_text
      (("Question: q\n1. a\n2. b\n3. c\n4. d\nAnswer: 1".toList) ++
        '\n' :: ("extra".toList)) =
      parse_generated_text ("Question: q\n1. a\n2. b\n3. c\n4. d\nAnswer: 1".toList) :=
  c7_extra_lines ("Question: q\n1. a\n2. b\n3. c\n4. d\nAnswer: 1".toList)
    ("extra".toList) (by decide)

/-- C8 (counterexample): the claim fails for an Answer line whose value
(the remainder after the "Answer:" prefix) is non-numeric but itself
contains "Answer:": `replace` deletes the inner occurrence and the parse
succeeds. -/
theorem c8_counterexample :
    pyInt (strip (afterMarker apat ("Answer: Answer: 2".toList))) = none ∧
    (parse_generated_text
      ("Question: q\n1. a\n2. b\n3. c\n4. d\nAnswer: Answer: 2".toList)).isSome =
      true := by
  constructor
  · decide
  · decide

/-- C8 (amended): with fewer than 6 lines the parse fails (returning a
failure value, never raising); and the parse fails whenever the answer
value extracted as the source does (line 5 with every "Answer:" removed,
trimmed) is non-numeric or an integer outside [1,4]. -/
theorem c8_failure_modes (t : Str) :
    ((splitChar '\n' t).length < 6 → parse_generated_text t = none) ∧
    (∀ l0 l1 l2 l3 l4 l5 rest,
      splitChar '\n' t = l0 :: l1 :: l2 :: l3 :: l4 :: l5 :: rest →
      (pyInt (strip (removeAll apat l5)) = none ∨
        ∃ n, pyInt (strip (removeAll apat l5)) = some n ∧ (n < 1 ∨ 4 < n)) →
      parse_generated_text t = none) := by
  constructor
  · intro h
    unfold parse_generated_text
    exact parseLines_short _ h
  · intro l0 l1 l2 l3 l4 l5 rest hls hbad
    unfold parse_generated_text
    rw [hls]
    exact parseSix_none_of_bad_answer l0 l1 l2 l3 l4 l5 hbad

/-- C8 (witness): a 2-line input fails, and a 6-line input with
`Answer: 7` (out of range) fails. -/
theorem c8_failure_modes_witness :
    parse_generated_text ("Question: q\n1. a".toList) = none ∧
    parse_generated_text ("Question: q\n1. a\n2. b\n3. c\n4. d\nAnswer: 7".toList) =
      none := by
  constructor
  · exact (c8_failure_modes ("Question: q\n1. a".toList)).1 (by decide)
  · exact (c8_failure_modes
      ("Question: q\n1. a\n2. b\n3. c\n4. d\nAnswer: 7".toList)).2
      ("Question: q".toList) ("1. a".toList) ("2. b".toList) ("3. c".toList)
      ("4. d".toList) ("Answer: 7".toList) [] (by decide)
      (Or.inr ⟨7, by decide, by norm_num⟩)

/-- C9: for every topic and every outcome sequence of the 5 service
calls, the generator returns between 0 and 5 Questions; an error in any
iteration just drops out of the batch without aborting the rest; and
when all 5 replies are parseable the length is exactly 5. -/
theorem c9_generate_bounds (topic : Str) (outcomes : List Outcome)
    (hlen : outcomes.length = 5) :
    (generate_quiz outcomes).length ≤ 5 ∧
    (∀ e pre post, outcomes = pre ++ Outcome.error e :: post →
      generate_quiz outcomes = generate_quiz (pre ++ post)) ∧
    ((∀ o ∈ outcomes, ∃ t, o = Outcome.reply t ∧
        (buildQuestion (strip t)).isSome = true) →
      (generate_quiz outcomes).length = 5) := by
  refine ⟨?_, ?_, ?_⟩
  · calc (generate_quiz outcomes).length
        ≤ outcomes.length := List.length_filterMap_le _ _
      _ = 5 := hlen
  · intro e pre post hsplit
    subst hsplit
    simp [generate_quiz, List.filterMap_append]
  · intro hall
    have key : ∀ (l : List Outcome),
        (∀ o ∈ l, ∃ t, o = Outcome.reply t ∧
          (buildQuestion (strip t)).isSome = true) →
        (generate_quiz l).length = l.length := by
      intro l
      induction l with
      | nil => intro _; rfl
      | cons x xs ih =>
        intro hx
        obtain ⟨t, rfl, hsome⟩ := hx x (by simp)
        obtain ⟨qu, hqu⟩ := Option.isSome_iff_exists.mp hsome
        have hxs := ih (fun o ho => hx o (by simp [ho]))
        simp only [generate_quiz, List.filterMap_cons] at hxs ⊢
        rw [hqu]
        simp only [List.length_cons]
        omega
    rw [key outcomes hall, hlen]

/-- C9 (witness): the bounds at a batch of five parseable replies. -/
theorem c9_generate_bounds_witness :
    (generate_quiz sampleOutcomes).length ≤ 5 ∧
    (generate_quiz sampleOutcomes).length = 5 := by
  have h := c9_generate_bounds ("math".toList) sampleOutcomes (by decide)
  refine ⟨h.1, h.2.2 ?_⟩
  intro o ho
  fin_cases ho <;> exact ⟨_, rfl, by decide⟩

/-- C10: a reply that passes all six validation rules but whose question
body is empty after trimming yields no Question: the parsed triple is
discarded by the generator's truthiness guard
(`if question and options and answer`, src/main.py line 132). -/
theorem c10_empty_question_discarded (t : Str) (opts : List Str) (a : Int)
    (h : parse_generated_text (strip t) = some ([], opts, a)) :
    buildQuestion (strip t) = none ∧ generate_quiz [Outcome.reply t] = [] := by
  have hb : buildQuestion (strip t) = none := by
    unfold buildQuestion
    rw [h]
    simp
  exact ⟨hb, by simp [generate_quiz, hb]⟩

/-- C10 (witness): the reply whose first line is exactly "Question:"
parses (validations pass, body empty) yet the generator keeps nothing. -/
theorem c10_empty_question_discarded_witness :
    buildQuestion (strip ("Question:\n1. a\n2. b\n3. c\n4. d\nAnswer: 1".toList)) =
      none ∧
    generate_quiz
      [Outcome.reply ("Question:\n1. a\n2. b\n3. c\n4. d\nAnswer: 1".toList)] = [] :=
  c10_empty_question_discarded
    ("Question:\n1. a\n2. b\n3. c\n4. d\nAnswer: 1".toList)
    ["a".toList, "b".toList, "c".toList, "d".toList] 1 (by decide)

/-- C4: a click inside option rectangle `i` advances the cursor by one
and bumps the score exactly when that option's text equals the stored
answer; and when the user clicks a correct option for every question,
the Result screen reports the score as n out of n, with n the number of
generated questions. -/
theorem c4_click_scoring :
    (∀ questions cq score p qd i,
      questions.get? cq = some qd → qd.options.length = 4 → i < 4 →
      collidepoint (option_rect i) p = true →
      handleClick questions (cq, score) p =
        (cq + 1, score + (if qd.options.getD i [] = qd.answer then 1 else 0))) ∧
    (∀ questions clicks,
      (∀ q ∈ questions, q.options.length = 4) →
      clicks.length = questions.length →
      (∀ k, k < questions.length → CorrectClick questions k (clicks.getD k ⟨0, 0⟩)) →
      run_quiz questions clicks = some (questions.length, questions.length)) := by
  constructor
  · intro questions cq score p qd i hqd hl hi hcol
    exact handleClick_hit questions cq score p qd i hqd hl hi hcol
  · intro questions clicks hlen4 hlen hcor
    unfold run_quiz
    rw [playClicks_all_correct questions hlen4 clicks 0 0 (by omega)
      (fun k hk => by simpa using hcor k (by omega))]
    simp [hlen]

/-- C4 (witness): a three-question quiz, clicking the correct option each
time, ends 3 / 3; and one hit click advances and scores. -/
theorem c4_click_scoring_witness :
    run_quiz sampleQuiz sampleClicks = some (3, 3) ∧
    handleClick sampleQuiz (0, 0) ⟨150, 210⟩ = (1, 1) := by
  constructor
  · have h := c4_click_scoring.2 sampleQuiz sampleClicks (by decide) (by decide)
      (fun k hk => by
        have hk3 : k < 3 := by simpa [sampleQuiz] using hk
        interval_cases k
        · exact ⟨sampleQuiz.get ⟨0, by decide⟩, 0, by decide, by norm_num,
            by decide, by decide⟩
        · exact ⟨sampleQuiz.get ⟨1, by decide⟩, 2, by decide, by norm_num,
            by decide, by decide⟩
        · exact ⟨sampleQuiz.get ⟨2, by decide⟩, 3, by decide, by norm_num,
            by decide, by decide⟩)
    simpa using h
  · have h := c4_click_scoring.1 sampleQuiz 0 0 ⟨150, 210⟩
      (sampleQuiz.get ⟨0, by decide⟩) 0 (by decide) (by decide) (by norm_num)
      (by decide)
    simpa using h
